import Mathlib

/-!
Verification of the RegIntellect event ingestion & alert-scoring pipeline.

The definitions below are shallow embeddings of the TypeScript sources:
  * server/lib/score.ts          — scoring engine, categorization, summarize gate
  * server/routes.ts             — withRetry wrapper, per-source adjustments,
                                   status-tracker updates (MemStorage semantics)
  * server/lib/ai-perplexity.ts  — summarizer with truncated-title fallback
  * the source router (dry-run pipeline, deduplication call sites)
JavaScript numbers that only ever hold integers are modelled as Int/Nat;
millisecond timestamps as Nat; absent/null fields as Option.
-/

namespace RegIntellect

/-! ### server/lib/score.ts : data model -/

structure ScoreFlags where
  manufacturer_notice : Bool
  maude_signal : Bool
  california_mandate : Bool
  radiation_safety : Bool
deriving DecidableEq

structure ScoreMatch where
  exact_model : Bool
  fuzzy_model : Bool
deriving DecidableEq

structure ScoreDelta where
  old : Int
  new : Int
deriving DecidableEq

/-- The `EventForScoring` input shape of `scoreEvent` (score.ts).
Optional TS fields become `Option`; the TS truthiness test on an absent
optional boolean is `false`, matched by `(·.map f).getD false`. -/
structure EventForScoring where
  sources : List String
  flags : Option ScoreFlags
  match_ : Option ScoreMatch
  delta : Option ScoreDelta
  modalityType : Option String
  californiaRegion : Option String
  radiologyImpact : Option String
deriving DecidableEq

structure ScoringResult where
  score : Int
  reasons : List String
deriving DecidableEq

def criticalModalities : List String := ["CT", "MRI", "Nuclear Medicine", "Mammography"]

def majorCaliforniaRegions : List String := ["Bay Area", "Greater LA", "San Diego"]

/-- `scoreEvent` from score.ts: sequential accumulation of (score, reasons),
one `if` per rule, in source order. -/
def scoreEvent (event : EventForScoring) : ScoringResult :=
  let p : Int × List String := (0, [])
  let p := if event.sources.contains "openfda:enforcement" then
      (p.1 + 60, p.2 ++ ["FDA enforcement action"]) else p
  let p := if event.sources.contains "cms:pfs_change" then
      (p.1 + 70, p.2 ++ ["Official CMS payment change"]) else p
  let p := if event.sources.contains "cdph" then
      (p.1 + 65, p.2 ++ ["California Department of Public Health alert"]) else p
  let p := if event.sources.contains "rhb" then
      (p.1 + 70, p.2 ++ ["California Radiologic Health Branch requirement"]) else p
  let p := if (event.flags.map (fun f => f.manufacturer_notice)).getD false then
      (p.1 + 20, p.2 ++ ["Manufacturer notice present"]) else p
  let p := if (event.flags.map (fun f => f.maude_signal)).getD false then
      (p.1 + 10, p.2 ++ ["MAUDE signal detected"]) else p
  let p := if (event.flags.map (fun f => f.california_mandate)).getD false then
      (p.1 + 25, p.2 ++ ["California state mandate"]) else p
  let p := if (event.flags.map (fun f => f.radiation_safety)).getD false then
      (p.1 + 30, p.2 ++ ["Radiation safety requirement"]) else p
  let p := if (event.match_.map (fun m => m.exact_model)).getD false then
      (p.1 + 20, p.2 ++ ["Exact device model match"]) else p
  let p := if (event.match_.map (fun m => m.fuzzy_model)).getD false then
      (p.1 + 10, p.2 ++ ["Fuzzy device model match"]) else p
  let p := if (event.modalityType.map (fun m => criticalModalities.contains m)).getD false then
      (p.1 + 15, p.2 ++ ["Critical radiology modality: " ++ event.modalityType.getD ""]) else p
  let p := if (event.californiaRegion.map (fun r => majorCaliforniaRegions.contains r)).getD false then
      (p.1 + 5, p.2 ++ ["Major California market: " ++ event.californiaRegion.getD ""]) else p
  let p := if (event.delta.map (fun d => decide (50 < (d.new - d.old).natAbs))).getD false then
      (p.1 + 15, p.2 ++ ["Significant financial impact"]) else p
  let p := if (event.radiologyImpact.map (fun ri => ri == "High")).getD false then
      (p.1 + 10, p.2 ++ ["High radiology impact"]) else p
  ⟨p.1, p.2⟩

/-- `categorizeByScore` from score.ts. -/
def categorizeByScore (score : Int) : String :=
  if 85 ≤ score then "Urgent"
  else if 75 ≤ score then "Informational"
  else if 50 ≤ score then "Digest"
  else "Suppressed"

/-- `shouldSummarize` from score.ts. -/
def shouldSummarize (category : String) : Bool :=
  category == "Urgent" || category == "Informational"

/-! ### The §4.4 rule table, as data

Each row carries the firing condition, the points, and the reason string of
one rule of the table, in table order (identical to source evaluation
order).  `scoringStep` is the action of one row on an accumulator. -/

structure ScoringRule where
  cond : EventForScoring → Bool
  points : Int
  reason : EventForScoring → String

def scoringRules : List ScoringRule :=
  [ ⟨fun e => e.sources.contains "openfda:enforcement", 60,
      fun _ => "FDA enforcement action"⟩,
    ⟨fun e => e.sources.contains "cms:pfs_change", 70,
      fun _ => "Official CMS payment change"⟩,
    ⟨fun e => e.sources.contains "cdph", 65,
      fun _ => "California Department of Public Health alert"⟩,
    ⟨fun e => e.sources.contains "rhb", 70,
      fun _ => "California Radiologic Health Branch requirement"⟩,
    ⟨fun e => (e.flags.map (fun f => f.manufacturer_notice)).getD false, 20,
      fun _ => "Manufacturer notice present"⟩,
    ⟨fun e => (e.flags.map (fun f => f.maude_signal)).getD false, 10,
      fun _ => "MAUDE signal detected"⟩,
    ⟨fun e => (e.flags.map (fun f => f.california_mandate)).getD false, 25,
      fun _ => "California state mandate"⟩,
    ⟨fun e => (e.flags.map (fun f => f.radiation_safety)).getD false, 30,
      fun _ => "Radiation safety requirement"⟩,
    ⟨fun e => (e.match_.map (fun m => m.exact_model)).getD false, 20,
      fun _ => "Exact device model match"⟩,
    ⟨fun e => (e.match_.map (fun m => m.fuzzy_model)).getD false, 10,
      fun _ => "Fuzzy device model match"⟩,
    ⟨fun e => (e.modalityType.map (fun m => criticalModalities.contains m)).getD false, 15,
      fun e => "Critical radiology modality: " ++ e.modalityType.getD ""⟩,
    ⟨fun e => (e.californiaRegion.map (fun r => majorCaliforniaRegions.contains r)).getD false, 5,
      fun e => "Major California market: " ++ e.californiaRegion.getD ""⟩,
    ⟨fun e => (e.delta.map (fun d => decide (50 < (d.new - d.old).natAbs))).getD false, 15,
      fun _ => "Significant financial impact"⟩,
    ⟨fun e => (e.radiologyImpact.map (fun ri => ri == "High")).getD false, 10,
      fun _ => "High radiology impact"⟩ ]

def scoringStep (e : EventForScoring) (p : Int × List String) (r : ScoringRule) :
    Int × List String :=
  if r.cond e then (p.1 + r.points, p.2 ++ [r.reason e]) else p

theorem scoreEvent_eq_foldl (e : EventForScoring) :
    scoreEvent e =
      ⟨(scoringRules.foldl (scoringStep e) (0, [])).1,
       (scoringRules.foldl (scoringStep e) (0, [])).2⟩ := rfl

theorem foldl_scoringStep (e : EventForScoring) :
    ∀ (rules : List ScoringRule) (s : Int) (rs : List String),
      rules.foldl (scoringStep e) (s, rs) =
        (s + ((rules.filter (fun r => r.cond e)).map (fun r => r.points)).sum,
         rs ++ (rules.filter (fun r => r.cond e)).map (fun r => r.reason e)) := by
  intro rules
  induction rules with
  | nil => intro s rs; simp
  | cons r rest ih =>
    intro s rs
    by_cases h : r.cond e
    · simp only [List.foldl_cons, scoringStep, h, if_pos, List.filter_cons_of_pos,
        List.map_cons, List.sum_cons, ih]
      simp [add_assoc]
    · simp only [List.foldl_cons, scoringStep, h, if_neg, List.filter_cons_of_neg, ih]
      simp [h]

/-- Claim C1: for every scoring input, the score returned by scoreEvent is the
exact sum of the rule-table points over satisfied conditions (all applicable
rules fire independently), and the returned reasons are exactly the satisfied
conditions' reason strings in table order, never deduplicated or reordered. -/
theorem scoreEvent_matches_rule_table (e : EventForScoring) :
    (scoreEvent e).score =
      ((scoringRules.filter (fun r => r.cond e)).map (fun r => r.points)).sum ∧
    (scoreEvent e).reasons =
      (scoringRules.filter (fun r => r.cond e)).map (fun r => r.reason e) := by
  rw [scoreEvent_eq_foldl, foldl_scoringStep e scoringRules 0 []]
  constructor <;> simp

theorem scoringRules_points_pos : ∀ r ∈ scoringRules, 0 < r.points := by
  intro r hr
  fin_cases hr <;> norm_num

/-- Claim C10: the score returned by scoreEvent is always non-negative, and
it is zero exactly when the returned reasons list is empty (every firing rule
adds positive points and appends exactly one reason). -/
theorem scoreEvent_nonneg_and_zero_iff_no_reasons (e : EventForScoring) :
    0 ≤ (scoreEvent e).score ∧
    ((scoreEvent e).score = 0 ↔ (scoreEvent e).reasons = []) := by
  obtain ⟨hs, hr⟩ := scoreEvent_matches_rule_table e
  have hpos : ∀ x ∈ (scoringRules.filter (fun r => r.cond e)).map (fun r => r.points),
      0 < x := by
    intro x hx
    obtain ⟨r, hrmem, rfl⟩ := List.mem_map.mp hx
    exact scoringRules_points_pos r (List.mem_of_mem_filter hrmem)
  constructor
  · rw [hs]
    exact List.sum_nonneg (fun x hx => le_of_lt (hpos x hx))
  · rw [hs, hr]
    constructor
    · intro hzero
      by_contra hne
      have hmapne : (scoringRules.filter (fun r => r.cond e)).map (fun r => r.points) ≠ [] := by
        simpa [List.map_eq_nil_iff] using hne
      have := List.sum_pos _ hpos hmapne
      omega
    · intro hnil
      have : (scoringRules.filter (fun r => r.cond e)) = [] := by
        simpa [List.map_eq_nil_iff] using hnil
      simp [this]

/-- Claim C2: categorizeByScore maps a score to Urgent exactly when it is at
least 85, Informational exactly on [75, 85), Digest exactly on [50, 75), and
Suppressed exactly below 50; the spec's concrete boundary cases hold; and
shouldSummarize is true exactly for Urgent and Informational. -/
theorem categorize_tier_boundaries :
    (∀ s : Int,
      (categorizeByScore s = "Urgent" ↔ 85 ≤ s) ∧
      (categorizeByScore s = "Informational" ↔ 75 ≤ s ∧ s < 85) ∧
      (categorizeByScore s = "Digest" ↔ 50 ≤ s ∧ s < 75) ∧
      (categorizeByScore s = "Suppressed" ↔ s < 50)) ∧
    categorizeByScore 84 = "Informational" ∧
    categorizeByScore 85 = "Urgent" ∧
    categorizeByScore 74 = "Digest" ∧
    categorizeByScore 50 = "Digest" ∧
    categorizeByScore 49 = "Suppressed" ∧
    (∀ c : String, shouldSummarize c = true ↔ (c = "Urgent" ∨ c = "Informational")) := by
  refine ⟨?_, by decide, by decide, by decide, by decide, by decide, ?_⟩
  · intro s
    unfold categorizeByScore
    split_ifs with h1 h2 h3 <;>
      refine ⟨?_, ?_, ?_, ?_⟩ <;> constructor <;> intro h <;>
        first
          | rfl
          | omega
          | (exact absurd h (by decide))
  · intro c
    simp [shouldSummarize]

/-! ### server/routes.ts : per-source scoring adjustments -/

/-- Federal Register handler adjustment (routes.ts): after generic scoring,
`scoring.score = Math.max(scoring.score - 15, 0)`, then categorization. -/
def fedregAdjustedScore (e : EventForScoring) : Int :=
  max ((scoreEvent e).score - 15) 0

/-- MAUDE handler adjustment (routes.ts): after generic scoring,
`scoring.score = Math.min(scoring.score, 70)`, then categorization. -/
def maudeAdjustedScore (e : EventForScoring) : Int :=
  min ((scoreEvent e).score) 70

/-- Claim C7: the Federal Register adjustment computes max(generic - 15, 0)
before categorization, so an event with generic score 90 is categorized
Informational and not Urgent; the MAUDE adjustment caps the score at 70, so a
MAUDE event is never categorized Urgent. -/
theorem sourceAdjustments_contract (e : EventForScoring) :
    fedregAdjustedScore e = max ((scoreEvent e).score - 15) 0 ∧
    ((scoreEvent e).score = 90 →
      fedregAdjustedScore e = 75 ∧
      categorizeByScore (fedregAdjustedScore e) = "Informational" ∧
      categorizeByScore (fedregAdjustedScore e) ≠ "Urgent") ∧
    maudeAdjustedScore e = min ((scoreEvent e).score) 70 ∧
    categorizeByScore (maudeAdjustedScore e) ≠ "Urgent" := by
  refine ⟨rfl, ?_, rfl, ?_⟩
  · intro h90
    have h : fedregAdjustedScore e = 75 := by
      unfold fedregAdjustedScore
      rw [h90]
      decide
    refine ⟨h, ?_, ?_⟩ <;> rw [h] <;> decide
  · have hle : maudeAdjustedScore e ≤ 70 := min_le_right _ _
    unfold categorizeByScore
    split_ifs with h1 h2 h3 <;> first | omega | decide

def eventScoring90 : EventForScoring :=
  ⟨["openfda:enforcement"], some ⟨true, true, false, false⟩, none, none, none, none, none⟩

theorem sourceAdjustments_contract_witness :
    (scoreEvent eventScoring90).score = 90 ∧
    categorizeByScore (fedregAdjustedScore eventScoring90) = "Informational" :=
  ⟨by decide, ((sourceAdjustments_contract eventScoring90).2.1 (by decide)).2.1⟩

/-! ### server/routes.ts : the withRetry wrapper

`withRetry(fn, maxRetries = 3)` runs `fn` up to `maxRetries` times; after a
failed attempt `i` with another attempt remaining it sleeps
`Math.min(200 * Math.pow(4, i), 2000)` milliseconds; after the loop it
rethrows `lastError` (which in JS is `undefined` when no attempt ran, hence
the `Option E` in the error position).  The operation is modelled as a
function from the attempt index to that attempt's outcome; the result records
the number of attempts made, the list of backoff delays slept (in order), and
the final outcome. -/

def backoffDelay (i : Nat) : Nat := min (200 * 4 ^ i) 2000

def withRetryGo {E A : Type} (op : Nat → Except E A) :
    Nat → Nat → Option E → Nat × List Nat × Except (Option E) A
  | 0, _, last => (0, [], Except.error last)
  | Nat.succ remaining, i, _ =>
    match op i with
    | Except.ok a => (1, [], Except.ok a)
    | Except.error e =>
      if remaining = 0 then
        (1, [], Except.error (some e))
      else
        let rest := withRetryGo op remaining (i + 1) (some e)
        (rest.1 + 1, backoffDelay i :: rest.2.1, rest.2.2)

def withRetry {E A : Type} (op : Nat → Except E A) (maxRetries : Nat) :
    Nat × List Nat × Except (Option E) A :=
  withRetryGo op maxRetries 0 none

theorem withRetryGo_first_success {E A : Type} (op : Nat → Except E A) :
    ∀ (k remaining i : Nat) (last : Option E) (a : A),
      k < remaining →
      (∀ j, j < k → ∃ e, op (i + j) = Except.error e) →
      op (i + k) = Except.ok a →
      withRetryGo op remaining i last =
        (k + 1, (List.range k).map (fun j => backoffDelay (i + j)), Except.ok a) := by
  intro k
  induction k with
  | zero =>
    intro remaining i last a hk _ hok
    obtain ⟨r, rfl⟩ := Nat.exists_eq_succ_of_ne_zero (Nat.pos_iff_ne_zero.mp hk)
    simp only [Nat.add_zero] at hok
    simp [withRetryGo, hok]
  | succ k ih =>
    intro remaining i last a hk hfail hok
    obtain ⟨r, rfl⟩ := Nat.exists_eq_succ_of_ne_zero (Nat.pos_iff_ne_zero.mp (Nat.lt_of_le_of_lt (Nat.zero_le _) hk))
    obtain ⟨e0, he0⟩ := hfail 0 (Nat.succ_pos k)
    rw [Nat.add_zero] at he0
    have hkr : k < r := Nat.lt_of_succ_lt_succ hk
    have hr0 : r ≠ 0 := Nat.pos_iff_ne_zero.mp (Nat.lt_of_le_of_lt (Nat.zero_le _) hkr)
    have hrest := ih r (i + 1) (some e0) a hkr
      (fun j hj => by
        obtain ⟨e, he⟩ := hfail (j + 1) (Nat.succ_lt_succ hj)
        exact ⟨e, by rw [show i + 1 + j = i + (j + 1) by omega]; exact he⟩)
      (by rw [show i + 1 + k = i + (k + 1) by omega]; exact hok)
    simp only [withRetryGo, he0]
    rw [if_neg hr0]
    simp only [hrest, Prod.mk.injEq, true_and, and_true]
    rw [List.range_succ_eq_map, List.map_cons, List.map_map]
    simp only [Nat.add_zero]
    congr 1
    apply List.map_congr_left
    intro j _
    simp only [Function.comp_apply]
    congr 1
    omega

theorem withRetryGo_all_fail {E A : Type} (op : Nat → Except E A) :
    ∀ (remaining i : Nat) (last : Option E),
      1 ≤ remaining →
      (∀ j, j < remaining → ∃ e, op (i + j) = Except.error e) →
      ∃ e, op (i + (remaining - 1)) = Except.error e ∧
        withRetryGo op remaining i last =
          (remaining, (List.range (remaining - 1)).map (fun j => backoffDelay (i + j)),
           Except.error (some e)) := by
  intro remaining
  induction remaining with
  | zero => intro i last h; omega
  | succ r ih =>
    intro i last _ hfail
    obtain ⟨e0, he0⟩ := hfail 0 (Nat.succ_pos r)
    rw [Nat.add_zero] at he0
    by_cases hr : r = 0
    · subst hr
      refine ⟨e0, by simpa using he0, ?_⟩
      simp [withRetryGo, he0]
    · have hr1 : 1 ≤ r := Nat.pos_iff_ne_zero.mpr hr
      obtain ⟨e, he, hgo⟩ := ih (i + 1) (some e0) hr1
        (fun j hj => by
          obtain ⟨e', he'⟩ := hfail (j + 1) (Nat.succ_lt_succ hj)
          exact ⟨e', by rw [show i + 1 + j = i + (j + 1) by omega]; exact he'⟩)
      refine ⟨e, by rw [show i + (r + 1 - 1) = i + 1 + (r - 1) by omega]; exact he, ?_⟩
      simp only [withRetryGo, he0]
      rw [if_neg hr]
      simp only [hgo, Prod.mk.injEq, true_and, and_true]
      rw [show r + 1 - 1 = (r - 1) + 1 by omega, List.range_succ_eq_map, List.map_cons,
        List.map_map]
      simp only [Nat.add_zero]
      congr 1
      apply List.map_congr_left
      intro j _
      simp only [Function.comp_apply]
      congr 1
      omega

/-- Claim C3: withRetry returns the operation's first successful result after
k+1 attempts when the first k attempts fail, sleeping the deterministic
backoff min(200 * 4^i, 2000) after each failed attempt i that is retried
(200ms then 800ms for the first two retries); an always-failing operation is
attempted exactly maxRetries times, and the error of the operation's own last
attempt (not a wrapper error) is what propagates. -/
theorem withRetry_contract {E A : Type} (op : Nat → Except E A) (maxRetries : Nat) :
    backoffDelay 0 = 200 ∧ backoffDelay 1 = 800 ∧
    (∀ i, backoffDelay i = min (200 * 4 ^ i) 2000) ∧
    (∀ k a, k < maxRetries →
      (∀ j, j < k → ∃ e, op j = Except.error e) →
      op k = Except.ok a →
      withRetry op maxRetries = (k + 1, (List.range k).map backoffDelay, Except.ok a)) ∧
    (1 ≤ maxRetries →
      (∀ j, j < maxRetries → ∃ e, op j = Except.error e) →
      ∃ e, op (maxRetries - 1) = Except.error e ∧
        withRetry op maxRetries =
          (maxRetries, (List.range (maxRetries - 1)).map backoffDelay,
           Except.error (some e))) := by
  refine ⟨rfl, rfl, fun _ => rfl, ?_, ?_⟩
  · intro k a hk hfail hok
    have h := withRetryGo_first_success op k maxRetries 0 none a hk
      (fun j hj => by simpa using hfail j hj) (by simpa using hok)
    simpa using h
  · intro hmax hfail
    obtain ⟨e, he, hgo⟩ := withRetryGo_all_fail op maxRetries 0 none hmax
      (fun j hj => by simpa using hfail j hj)
    exact ⟨e, by simpa using he, by simpa using hgo⟩

/-- A concrete operation that fails on its first two attempts and succeeds on
the third, used to instantiate the retry contract. -/
def retryDemoOp (j : Nat) : Except String Nat :=
  if j < 2 then Except.error "upstream unavailable" else Except.ok 7

theorem withRetry_contract_witness :
    (2 : Nat) < 3 ∧
    withRetry retryDemoOp 3 = (3, [200, 800], Except.ok 7) := by
  refine ⟨by decide, ?_⟩
  have h := (withRetry_contract retryDemoOp 3).2.2.2.1 2 7 (by decide)
    (fun j hj => ⟨"upstream unavailable", by simp [retryDemoOp, hj]⟩)
    rfl
  simpa using h

/-! ### server/storage.ts MemStorage + routes.ts status-tracker updates

`updateSystemStatus(source, status)` looks up the entry for `source`,
merges the partial patch over it (`{ ...existing, ...status }`, replacing
the entry in place), or creates a fresh entry whose absent fields default to
null / 0.  A patch field is either absent (`Option.none` at the outer layer)
or present, possibly carrying null.  Timestamps are Nat milliseconds. -/

structure SystemStatus where
  source : String
  lastSuccess : Option Nat
  lastError : Option Nat
  errorCount24h : Int
  lastDigestSent : Option Nat
deriving DecidableEq

structure StatusPatch where
  lastSuccess : Option (Option Nat)
  lastError : Option (Option Nat)
  errorCount24h : Option Int
  lastDigestSent : Option (Option Nat)
deriving DecidableEq

def mergeStatus (existing : SystemStatus) (patch : StatusPatch) : SystemStatus :=
  { source := existing.source
    lastSuccess := patch.lastSuccess.getD existing.lastSuccess
    lastError := patch.lastError.getD existing.lastError
    errorCount24h := patch.errorCount24h.getD existing.errorCount24h
    lastDigestSent := patch.lastDigestSent.getD existing.lastDigestSent }

def freshStatus (source : String) (patch : StatusPatch) : SystemStatus :=
  { source := source
    lastSuccess := patch.lastSuccess.getD none
    lastError := patch.lastError.getD none
    errorCount24h := patch.errorCount24h.getD 0
    lastDigestSent := patch.lastDigestSent.getD none }

def replaceFirstStatus (sts : List SystemStatus) (source : String) (patch : StatusPatch) :
    List SystemStatus :=
  match sts with
  | [] => []
  | st :: rest =>
    if st.source == source then mergeStatus st patch :: rest
    else st :: replaceFirstStatus rest source patch

def updateSystemStatus (sts : List SystemStatus) (source : String) (patch : StatusPatch) :
    List SystemStatus :=
  match sts.find? (fun s => s.source == source) with
  | some _ => replaceFirstStatus sts source patch
  | none => sts ++ [freshStatus source patch]

/-- The error-path errorCount24h expression of routes.ts:
`(statuses.find(s => s.source === src))?.errorCount24h || 0 + 1`.
In JavaScript `+` binds tighter than `||`, so the expression evaluates to the
current count when that count is truthy (non-zero) and to `0 + 1` otherwise. -/
def jsErrorCountOrInc (sts : List SystemStatus) (source : String) : Int :=
  match (sts.find? (fun s => s.source == source)).map (fun s => s.errorCount24h) with
  | some v => if v = 0 then 0 + 1 else v
  | none => 0 + 1

/-- The catch-path status update of a source handler in routes.ts:
`updateSystemStatus(src, { lastError: new Date(), errorCount24h: ... })`. -/
def recordRunFailure (sts : List SystemStatus) (source : String) (now : Nat) :
    List SystemStatus :=
  updateSystemStatus sts source
    { lastSuccess := none
      lastError := some (some now)
      errorCount24h := some (jsErrorCountOrInc sts source)
      lastDigestSent := none }

/-- The success-path status update of a source handler in routes.ts:
`updateSystemStatus(src, { lastSuccess: new Date() })`. -/
def recordRunSuccess (sts : List SystemStatus) (source : String) (now : Nat) :
    List SystemStatus :=
  updateSystemStatus sts source
    { lastSuccess := some (some now)
      lastError := none
      errorCount24h := none
      lastDigestSent := none }

/-- The start-of-run status update of a source handler in routes.ts:
`updateSystemStatus(src, { lastSuccess: null, lastError: null })`. -/
def startOfRunStatus (sts : List SystemStatus) (source : String) : List SystemStatus :=
  updateSystemStatus sts source
    { lastSuccess := some none
      lastError := some none
      errorCount24h := none
      lastDigestSent := none }

/-- Claim C4, evaluated at the failing input: after two consecutive failed
runs of source "recalls" from a fresh tracker, the recorded errorCount24h is
1, not 2 — the JS expression `prev || 0 + 1` parses as `prev || 1`, so a
non-zero count is returned unchanged instead of incremented.  The success
path is also evaluated: it records lastSuccess and leaves errorCount24h
untouched, as the claim states. -/
theorem errorCount_stuck_at_one :
    ((recordRunFailure (recordRunFailure [] "recalls" 1000) "recalls" 2000).find?
        (fun s => s.source == "recalls")).map (fun s => s.errorCount24h) = some 1 ∧
    ((recordRunSuccess (recordRunFailure [] "recalls" 1000) "recalls" 2000).find?
        (fun s => s.source == "recalls")).map
          (fun s => (s.lastSuccess, s.errorCount24h)) = some (some 2000, 1) := by
  constructor <;> rfl

def c8State : List SystemStatus :=
  [{ source := "recalls", lastSuccess := some 500, lastError := none,
     errorCount24h := 3, lastDigestSent := none }]

/-- Claim C8 as stated is false: the start-of-run update mutates the existing
entry, clearing lastSuccess from a set timestamp to null. -/
theorem startOfRun_mutates_entry :
    startOfRunStatus c8State "recalls" ≠ c8State ∧
    ((c8State.find? (fun s => s.source == "recalls")).map (fun s => s.lastSuccess)
        = some (some 500)) ∧
    (((startOfRunStatus c8State "recalls").find? (fun s => s.source == "recalls")).map
        (fun s => s.lastSuccess) = some none) := by
  refine ⟨?_, rfl, rfl⟩
  decide

theorem find?_replaceFirstStatus (src : String) (patch : StatusPatch) :
    ∀ (sts : List SystemStatus) (st : SystemStatus),
      sts.find? (fun s => s.source == src) = some st →
      (replaceFirstStatus sts src patch).find? (fun s => s.source == src) =
        some (mergeStatus st patch) := by
  intro sts
  induction sts with
  | nil => intro st h; simp [List.find?] at h
  | cons hd rest ih =>
    intro st h
    by_cases hsrc : (hd.source == src) = true
    · simp only [List.find?, hsrc] at h
      injection h with h
      subst h
      have hm : ((mergeStatus hd patch).source == src) = true := by
        simpa [mergeStatus] using hsrc
      simp only [replaceFirstStatus, if_pos hsrc, List.find?, hm]
    · have hsrc' : (hd.source == src) = false := by
        simpa using hsrc
      simp only [List.find?, hsrc'] at h
      simp only [replaceFirstStatus, hsrc', Bool.false_eq_true, if_false, List.find?]
      exact ih st h

/-- Claim C8, amended: at the start of a pipeline run the tracker does mutate
the source's entry, but only by clearing lastSuccess and lastError to null;
errorCount24h and lastDigestSent are left unchanged. -/
theorem startOfRun_clears_transients (sts : List SystemStatus) (src : String)
    (st : SystemStatus) (h : sts.find? (fun s => s.source == src) = some st) :
    ∃ st', (startOfRunStatus sts src).find? (fun s => s.source == src) = some st' ∧
      st'.lastSuccess = none ∧ st'.lastError = none ∧
      st'.errorCount24h = st.errorCount24h ∧ st'.lastDigestSent = st.lastDigestSent := by
  refine ⟨mergeStatus st
    { lastSuccess := some none, lastError := some none,
      errorCount24h := none, lastDigestSent := none }, ?_, rfl, rfl, rfl, rfl⟩
  unfold startOfRunStatus updateSystemStatus
  rw [h]
  exact find?_replaceFirstStatus src _ sts st h

theorem startOfRun_clears_transients_witness :
    ∃ st', (startOfRunStatus c8State "recalls").find? (fun s => s.source == "recalls")
          = some st' ∧
      st'.lastSuccess = none ∧ st'.lastError = none ∧
      st'.errorCount24h = 3 ∧ st'.lastDigestSent = none :=
  startOfRun_clears_transients c8State "recalls"
    { source := "recalls", lastSuccess := some 500, lastError := none,
      errorCount24h := 3, lastDigestSent := none } (by rfl)

/-! ### server/lib/ai-perplexity.ts : summarizeEvent

The whole body is wrapped in try/catch.  The outcome of the network call is
made explicit: the fetch can reject (network error), the response can be
non-ok (the code then throws and the catch handles it), any other error can
be thrown (e.g. JSON parsing), or the call succeeds with an optional content
string (`data.choices[0]?.message?.content`, `None` when absent).  The catch
branch returns the title truncated to 100 characters with an ellipsis
appended when the title is longer. -/

structure EventToSummarize where
  id : String
  title : String
  source : String
  device_name : Option String
  manufacturer : Option String
  reason : Option String
  classification : Option String
deriving DecidableEq

inductive SummarizeOutcome where
  | fetchFailure
  | httpNotOk (status : Nat)
  | thrownError
  | okResponse (content : Option String)
deriving DecidableEq

def isSummarizerFailure : SummarizeOutcome → Bool
  | SummarizeOutcome.okResponse _ => false
  | _ => true

def truncatedTitleFallback (title : String) : String :=
  title.take 100 ++ (if 100 < title.length then "..." else "")

def summarizeEvent (outcome : SummarizeOutcome) (event : EventToSummarize) : String :=
  match outcome with
  | SummarizeOutcome.okResponse content =>
    match content with
    | some c => if c = "" then "Summary unavailable" else c
    | none => "Summary unavailable"
  | _ => truncatedTitleFallback event.title

/-- Claim C9: whenever the AI summarizer call fails (network error, non-ok
HTTP status, or any thrown error), summarizeEvent returns — never raises —
the deterministic fallback: the title truncated to its first 100 characters,
with an ellipsis appended exactly when the title is longer than 100
characters. -/
theorem summarizeEvent_failure_fallback (outcome : SummarizeOutcome)
    (event : EventToSummarize) (h : isSummarizerFailure outcome = true) :
    summarizeEvent outcome event =
      event.title.take 100 ++ (if 100 < event.title.length then "..." else "") := by
  cases outcome with
  | okResponse content => simp [isSummarizerFailure] at h
  | fetchFailure => rfl
  | httpNotOk status => rfl
  | thrownError => rfl

def summarizeDemoEvent : EventToSummarize :=
  { id := "fda-device-1"
    title := String.mk (List.replicate 130 'x')
    source := "FDA Device Recall"
    device_name := none
    manufacturer := none
    reason := none
    classification := none }

theorem summarizeEvent_failure_fallback_witness :
    isSummarizerFailure (SummarizeOutcome.httpNotOk 500) = true ∧
    summarizeEvent (SummarizeOutcome.httpNotOk 500) summarizeDemoEvent =
      summarizeDemoEvent.title.take 100 ++
        (if 100 < summarizeDemoEvent.title.length then "..." else "") :=
  ⟨rfl, summarizeEvent_failure_fallback (SummarizeOutcome.httpNotOk 500)
    summarizeDemoEvent rfl⟩

/-! ### The source router: deduplication and the dry-run device pipeline

The router file keeps a process-wide `eventSignatures : Map<string, Date>`
(modelled as an association list keyed by signature, values in ms), reads
`dryRun` from the query, and for each fetched FDA device recall: computes a
signature over four identity fields, skips duplicates inside a 14-day
window, scores and normalizes the record, optionally summarizes it (guarded
by tier, dry-run and the daily AI quota), and commits signature, events and
persistence only when not in dry-run mode. -/

def fourteenDaysMs : Nat := 14 * 24 * 60 * 60 * 1000

def fifteenDaysMs : Nat := 15 * 24 * 60 * 60 * 1000

/-- Modelled from the spec: `generateEventSignature` lives in the server's
scoring module, which is absent from the sources (only its import and call
sites are present).  Per §3, a Signature is a stable hash of the four
identity fields (issuing organization, subject, classification, reason)
after normalization of case and whitespace, so records agreeing on the four
normalized fields agree on the signature; the hash is modelled as the
normalized fields joined with a separator. -/
def generateEventSignature (issuer subject classification reason : String) : String :=
  String.intercalate "|"
    [issuer.trim.toLower, subject.trim.toLower, classification.trim.toLower,
     reason.trim.toLower]

/-- Modelled from the spec: `isDuplicate(signature, window)` of the missing
scoring module (§4.3): true exactly when the signature is present in the
window with a last-seen timestamp at most 14 days old; the check never
updates the stored timestamp. -/
def isDuplicate (signature : String) (window : List (String × Nat)) (now : Nat) : Bool :=
  match window.lookup signature with
  | some lastSeen => decide (now - lastSeen ≤ fourteenDaysMs)
  | none => false

/-- `eventSignatures.set(signature, new Date())`: JS Map.set replaces the
entry for an existing key and inserts otherwise. -/
def windowSet : List (String × Nat) → String → Nat → List (String × Nat)
  | [], signature, now => [(signature, now)]
  | (k, v) :: rest, signature, now =>
    if k == signature then (k, now) :: rest else (k, v) :: windowSet rest signature now

/-- Modelled from the spec: the ai-usage-tracker module (absent from the
sources) implements the §4.6 summarization gate over a process-wide daily
counter: capacity check without side effect. -/
def canMakeAISummary (usage limit : Nat) : Bool := usage < limit

/-- Modelled from the spec: the §4.6 consume operation — returns true and
the incremented counter when capacity remains, false and the unchanged
counter otherwise. -/
def incrementPerplexityUsage (usage limit : Nat) : Bool × Nat :=
  if usage < limit then (true, usage + 1) else (false, usage)

structure RawDeviceRecall where
  firm_name : Option String
  product_description : Option String
  product_class : Option String
  reason_for_recall : Option String
  recall_number : Option String
  product_code : Option String
  report_date : Option String
deriving DecidableEq

/-- The signature call site of the device handler: the four identity fields,
each defaulted to the empty string when absent. -/
def recallSignature (r : RawDeviceRecall) : String :=
  generateEventSignature (r.firm_name.getD "") (r.product_description.getD "")
    (r.product_class.getD "") (r.reason_for_recall.getD "")

structure ScoringLibResult where
  category : String
  adjustedScore : Int
  confidence : String
deriving DecidableEq

structure NormalizedDeviceEvent where
  id : String
  title : String
  description : String
  source : String
  date : String
  manufacturer : Option String
  model : Option String
  category : String
  score : Int
  confidence : String
  link : String
  summary : Option String
deriving DecidableEq

/-- JavaScript `a || b` on an optional string: the default wins when the
value is absent or empty (falsy). -/
def jsOrString (o : Option String) (d : String) : String :=
  match o with
  | some s => if s = "" then d else s
  | none => d

/-- The inline normalization of the device handler (template strings render
an absent interpolated field as the text "undefined"). -/
def normalizeRecall (r : RawDeviceRecall) (scoring : ScoringLibResult)
    (nowIso : String) : NormalizedDeviceEvent :=
  { id := "fda-device-" ++ r.recall_number.getD "undefined"
    title := jsOrString r.product_class "Class III" ++ " Recall: " ++
      (r.product_description.map (fun s => s.take 100)).getD "undefined"
    description := jsOrString r.reason_for_recall "No reason provided"
    source := "FDA Device Recall"
    date := jsOrString r.report_date nowIso
    manufacturer := r.firm_name
    model := r.product_code
    category := scoring.category
    score := scoring.adjustedScore
    confidence := scoring.confidence
    link := "https://www.accessdata.fda.gov/scripts/cdrh/cfdocs/cfres/res.cfm?id=" ++
      r.recall_number.getD "undefined"
    summary := none }

/-- The handler's collaborators that live behind awaited calls or in modules
not under verification here: the scoring-library score function (absorbing
the user-device list), the best-effort AI normalizer, the summarizer (None
models a caught failure), the tier gate, and the daily AI ceiling. -/
structure DeviceDeps where
  scoreFn : RawDeviceRecall → ScoringLibResult
  aiNormalizeFn : RawDeviceRecall → Option NormalizedDeviceEvent
  summarizeFn : NormalizedDeviceEvent → Option String
  shouldSum : String → Bool
  aiDailyLimit : Nat

/-- The per-record loop of the device-recalls handler: skip 14-day
duplicates, score, normalize (AI fallback when structurally broken),
summarize under the tier/dry-run/quota guard, accumulate the event, and
track the signature only when committing. -/
def processDeviceRecallsLoop (deps : DeviceDeps) (dryRun : Bool) (now : Nat)
    (nowIso : String) :
    List RawDeviceRecall → List (String × Nat) → Nat → List NormalizedDeviceEvent →
    List (String × Nat) × Nat × List NormalizedDeviceEvent
  | [], window, usage, events => (window, usage, events)
  | r :: rest, window, usage, events =>
    let signature := recallSignature r
    if isDuplicate signature window now then
      processDeviceRecallsLoop deps dryRun now nowIso rest window usage events
    else
      let scoring := deps.scoreFn r
      let normalized0 := normalizeRecall r scoring nowIso
      let normalized1 :=
        if normalized0.title = "" ∨ normalized0.description = "" then
          match deps.aiNormalizeFn r with
          | some n => n
          | none => normalized0
        else normalized0
      let su :=
        if deps.shouldSum normalized1.category && !dryRun &&
            canMakeAISummary usage deps.aiDailyLimit then
          let inc := incrementPerplexityUsage usage deps.aiDailyLimit
          if inc.1 then
            ({ normalized1 with summary := deps.summarizeFn normalized1 }, inc.2)
          else (normalized1, inc.2)
        else (normalized1, usage)
      let window' := if !dryRun then windowSet window signature now else window
      processDeviceRecallsLoop deps dryRun now nowIso rest window' su.2
        (events ++ [su.1])

/-- The shared mutable state the handler can touch: the signature window,
the daily AI usage counter, the persisted event store (events.json) and the
status table (which this router never writes). -/
structure DeviceRunState where
  eventSignatures : List (String × Nat)
  perplexityUsage : Nat
  eventsStore : List NormalizedDeviceEvent
  statusTable : List SystemStatus
deriving DecidableEq

structure DeviceResponse where
  count : Nat
  events : List NormalizedDeviceEvent
deriving DecidableEq

/-- `slice(-n)`: the last n elements. -/
def lastN {α : Type} (n : Nat) (l : List α) : List α := l.drop (l.length - n)

/-- The device-recalls handler as a state transition: run the per-record
loop, persist at most the most recent 5000 events unless in dry-run mode,
and answer with the full list in dry-run mode and the first 5 events
otherwise. -/
def runDeviceRecalls (deps : DeviceDeps) (st : DeviceRunState)
    (records : List RawDeviceRecall) (dryRun : Bool) (now : Nat) (nowIso : String) :
    DeviceRunState × DeviceResponse :=
  let result := processDeviceRecallsLoop deps dryRun now nowIso records
    st.eventSignatures st.perplexityUsage []
  let events := result.2.2
  let eventsStore' :=
    if dryRun = false ∧ events ≠ [] then lastN 5000 (st.eventsStore ++ events)
    else st.eventsStore
  ({ eventSignatures := result.1
     perplexityUsage := result.2.1
     eventsStore := eventsStore'
     statusTable := st.statusTable },
   { count := events.length
     events := if dryRun then events else events.take 5 })

theorem loop_dryRun_state (deps : DeviceDeps) (now : Nat) (nowIso : String) :
    ∀ (records : List RawDeviceRecall) (window : List (String × Nat)) (usage : Nat)
      (events : List NormalizedDeviceEvent),
      (processDeviceRecallsLoop deps true now nowIso records window usage events).1 =
        window ∧
      (processDeviceRecallsLoop deps true now nowIso records window usage events).2.1 =
        usage := by
  intro records
  induction records with
  | nil => intro window usage events; exact ⟨rfl, rfl⟩
  | cons r rest ih =>
    intro window usage events
    by_cases hdup : isDuplicate (recallSignature r) window now = true
    · simp only [processDeviceRecallsLoop, hdup, if_pos]
      exact ih window usage events
    · simp only [processDeviceRecallsLoop, hdup, Bool.false_eq_true, if_neg,
        Bool.not_true, Bool.and_false, Bool.false_and, ite_false]
      exact ih window usage _

/-- Claim C5: with the dry-run flag set, the device pipeline leaves the
signature window, the AI usage counter, the event store and the status table
unchanged, while the response still carries the full computed scored event
list (not the truncated non-dry-run slice); consequently a second dry-run
over the same input reproduces the first run exactly. -/
theorem dryRun_frame (deps : DeviceDeps) (st : DeviceRunState)
    (records : List RawDeviceRecall) (now : Nat) (nowIso : String) :
    (runDeviceRecalls deps st records true now nowIso).1 = st ∧
    (runDeviceRecalls deps st records true now nowIso).2.events =
      (processDeviceRecallsLoop deps true now nowIso records st.eventSignatures
        st.perplexityUsage []).2.2 ∧
    runDeviceRecalls deps ((runDeviceRecalls deps st records true now nowIso).1)
        records true now nowIso =
      runDeviceRecalls deps st records true now nowIso := by
  obtain ⟨hw, hu⟩ := loop_dryRun_state deps now nowIso records st.eventSignatures
    st.perplexityUsage []
  have hstate : (runDeviceRecalls deps st records true now nowIso).1 = st := by
    simp only [runDeviceRecalls, hw, hu]
    simp
  refine ⟨hstate, ?_, ?_⟩
  · simp [runDeviceRecalls]
  · rw [hstate]

theorem lookup_windowSet (signature : String) (now : Nat) :
    ∀ window : List (String × Nat),
      (windowSet window signature now).lookup signature = some now := by
  intro window
  induction window with
  | nil => simp [windowSet, List.lookup]
  | cons kv rest ih =>
    obtain ⟨k, v⟩ := kv
    by_cases hk : (k == signature) = true
    · have hks : k = signature := by simpa using hk
      subst hks
      simp [windowSet, List.lookup]
    · have hne : k ≠ signature := by
        simpa using hk
      have hsk : (signature == k) = false := by
        rw [beq_eq_false_iff_ne]
        exact fun h => hne h.symm
      have hkf : (k == signature) = false := by
        rw [beq_eq_false_iff_ne]
        exact hne
      simp only [windowSet, hkf, Bool.false_eq_true, if_neg, List.lookup, hsk]
      exact ih

theorem loop_cons_duplicate (deps : DeviceDeps) (dryRun : Bool) (now : Nat)
    (nowIso : String) (r : RawDeviceRecall) (rest : List RawDeviceRecall)
    (window : List (String × Nat)) (usage : Nat)
    (events : List NormalizedDeviceEvent)
    (h : isDuplicate (recallSignature r) window now = true) :
    processDeviceRecallsLoop deps dryRun now nowIso (r :: rest) window usage events =
      processDeviceRecallsLoop deps dryRun now nowIso rest window usage events := by
  simp only [processDeviceRecallsLoop, h, if_pos]

theorem loop_single_accept (deps : DeviceDeps) (now : Nat) (nowIso : String)
    (r : RawDeviceRecall) (window : List (String × Nat)) (usage : Nat)
    (events : List NormalizedDeviceEvent)
    (h : isDuplicate (recallSignature r) window now = false) :
    (processDeviceRecallsLoop deps false now nowIso [r] window usage events).1 =
      windowSet window (recallSignature r) now ∧
    (processDeviceRecallsLoop deps false now nowIso [r] window usage
      events).2.2.length = events.length + 1 := by
  simp [processDeviceRecallsLoop, h]

/-- Claim C6: a candidate whose signature sits in the window with a
last-seen timestamp at most 14 days old is skipped without the stored
timestamp being refreshed; an accepted candidate records signature → now in
the window exactly when the run commits (not in dry-run mode); two records
with the same four identity fields have the same signature, a resubmission
within 14 days is suppressed, and a resubmission after 15 days is accepted
as new. -/
theorem dedup_window_contract (deps : DeviceDeps) (nowIso : String) :
    (∀ (r : RawDeviceRecall) (rest : List RawDeviceRecall) (dryRun : Bool)
        (now lastSeen : Nat) (window : List (String × Nat)) (usage : Nat)
        (events : List NormalizedDeviceEvent),
      window.lookup (recallSignature r) = some lastSeen →
      now - lastSeen ≤ fourteenDaysMs →
      processDeviceRecallsLoop deps dryRun now nowIso (r :: rest) window usage events =
        processDeviceRecallsLoop deps dryRun now nowIso rest window usage events) ∧
    (∀ (r : RawDeviceRecall) (now : Nat) (window : List (String × Nat)) (usage : Nat)
        (events : List NormalizedDeviceEvent),
      isDuplicate (recallSignature r) window now = false →
      ((processDeviceRecallsLoop deps false now nowIso [r] window usage
          events).1).lookup (recallSignature r) = some now ∧
      (processDeviceRecallsLoop deps false now nowIso [r] window usage
          events).2.2.length = events.length + 1) ∧
    (∀ (r : RawDeviceRecall) (now : Nat) (window : List (String × Nat)) (usage : Nat)
        (events : List NormalizedDeviceEvent),
      isDuplicate (recallSignature r) window now = false →
      (processDeviceRecallsLoop deps true now nowIso [r] window usage events).1 =
        window) ∧
    (∀ r r' : RawDeviceRecall,
      r.firm_name = r'.firm_name → r.product_description = r'.product_description →
      r.product_class = r'.product_class → r.reason_for_recall = r'.reason_for_recall →
      recallSignature r = recallSignature r') ∧
    (∀ (r : RawDeviceRecall) (t d usage usage2 : Nat)
        (events events2 : List NormalizedDeviceEvent),
      d ≤ fourteenDaysMs →
      processDeviceRecallsLoop deps false (t + d) nowIso [r]
          ((processDeviceRecallsLoop deps false t nowIso [r] [] usage events).1)
          usage2 events2 =
        ((processDeviceRecallsLoop deps false t nowIso [r] [] usage events).1,
         usage2, events2)) ∧
    (∀ (r : RawDeviceRecall) (t usage usage2 : Nat)
        (events events2 : List NormalizedDeviceEvent),
      (processDeviceRecallsLoop deps false (t + fifteenDaysMs) nowIso [r]
          ((processDeviceRecallsLoop deps false t nowIso [r] [] usage events).1)
          usage2 events2).2.2.length = events2.length + 1) := by
  have hdup_true : ∀ (r : RawDeviceRecall) (now lastSeen : Nat)
      (window : List (String × Nat)),
      window.lookup (recallSignature r) = some lastSeen →
      now - lastSeen ≤ fourteenDaysMs →
      isDuplicate (recallSignature r) window now = true := by
    intro r now lastSeen window hlook hle
    simp [isDuplicate, hlook, hle]
  have hfresh : ∀ (r : RawDeviceRecall) (t usage : Nat)
      (events : List NormalizedDeviceEvent),
      (processDeviceRecallsLoop deps false t nowIso [r] [] usage events).1 =
        [(recallSignature r, t)] := by
    intro r t usage events
    have h0 : isDuplicate (recallSignature r) [] t = false := by
      simp [isDuplicate, List.lookup]
    have := (loop_single_accept deps t nowIso r [] usage events h0).1
    simpa [windowSet] using this
  refine ⟨?_, ?_, ?_, ?_, ?_, ?_⟩
  · intro r rest dryRun now lastSeen window usage events hlook hle
    exact loop_cons_duplicate deps dryRun now nowIso r rest window usage events
      (hdup_true r now lastSeen window hlook hle)
  · intro r now window usage events h
    obtain ⟨h1, h2⟩ := loop_single_accept deps now nowIso r window usage events h
    exact ⟨by rw [h1]; exact lookup_windowSet (recallSignature r) now window, h2⟩
  · intro r now window usage events h
    exact (loop_dryRun_state deps now nowIso [r] window usage events).1
  · intro r r' h1 h2 h3 h4
    unfold recallSignature
    rw [h1, h2, h3, h4]
  · intro r t d usage usage2 events events2 hd
    rw [hfresh r t usage events]
    have hlook : ([(recallSignature r, t)] : List (String × Nat)).lookup
        (recallSignature r) = some t := by
      simp [List.lookup]
    have hle : t + d - t ≤ fourteenDaysMs := by omega
    have := loop_cons_duplicate deps false (t + d) nowIso r [] [(recallSignature r, t)]
      usage2 events2 (hdup_true r (t + d) t [(recallSignature r, t)] hlook hle)
    rw [this]
    rfl
  · intro r t usage usage2 events events2
    rw [hfresh r t usage events]
    have hnew : isDuplicate (recallSignature r) [(recallSignature r, t)]
        (t + fifteenDaysMs) = false := by
      have : t + fifteenDaysMs - t = fifteenDaysMs := by omega
      simp [isDuplicate, List.lookup, this, fourteenDaysMs, fifteenDaysMs]
    exact (loop_single_accept deps (t + fifteenDaysMs) nowIso r
      [(recallSignature r, t)] usage2 events2 hnew).2

/-- A concrete candidate record and collaborator set used to instantiate the
deduplication contract. -/
def dedupDemoRecall : RawDeviceRecall :=
  { firm_name := some "Acme Imaging"
    product_description := some "CT Scanner Model Z"
    product_class := some "Class II"
    reason_for_recall := some "Software defect"
    recall_number := some "Z-1234-2025"
    product_code := some "JAK"
    report_date := some "2025-01-02" }

def dedupDemoDeps : DeviceDeps :=
  { scoreFn := fun _ => { category := "Urgent", adjustedScore := 90, confidence := "High" }
    aiNormalizeFn := fun _ => none
    summarizeFn := fun _ => none
    shouldSum := fun c => c == "Urgent" || c == "Informational"
    aiDailyLimit := 300 }

theorem dedup_window_contract_witness :
    fourteenDaysMs ≤ fourteenDaysMs ∧
    (processDeviceRecallsLoop dedupDemoDeps false (0 + fourteenDaysMs) "t0" [dedupDemoRecall]
        ((processDeviceRecallsLoop dedupDemoDeps false 0 "t0" [dedupDemoRecall] [] 0 []).1)
        0 [] =
      ((processDeviceRecallsLoop dedupDemoDeps false 0 "t0" [dedupDemoRecall] [] 0 []).1,
       0, [])) ∧
    (processDeviceRecallsLoop dedupDemoDeps false (0 + fifteenDaysMs) "t0" [dedupDemoRecall]
        ((processDeviceRecallsLoop dedupDemoDeps false 0 "t0" [dedupDemoRecall] [] 0 []).1)
        0 []).2.2.length = 0 + 1 :=
  ⟨le_refl fourteenDaysMs,
   (dedup_window_contract dedupDemoDeps "t0").2.2.2.2.1 dedupDemoRecall 0 fourteenDaysMs
     0 0 [] [] (le_refl fourteenDaysMs),
   by
     have h := (dedup_window_contract dedupDemoDeps "t0").2.2.2.2.2 dedupDemoRecall 0 0 0
       ([] : List NormalizedDeviceEvent) ([] : List NormalizedDeviceEvent)
     simpa using h⟩

end RegIntellect
